import Mathlib

/-!
Shallow embedding of the evaluation-orchestration backend
(`backend/runner.py`, `backend/app.py`, `backend/schema_registry.py`).

Python values that can appear inside a test case or an init-params
dictionary are modelled by `Value`; dictionaries are association lists in
insertion order (Python dicts preserve insertion order).  Machine floats
are modelled as rationals.  Python exceptions are modelled by `PyExc`;
a function that can raise returns `Except PyExc _`.

Python string primitives (`lower`, `strip`, `split`, `in`) are given
structurally recursive char-list implementations so that every definition
evaluates inside the kernel.
-/

/-- A Python value as it can occur in a test-case / init-params dict.
`vmodel` stands for the opaque judge-model object injected by
`_configure_ollama_model` (a `GPTModel` instance in the source). -/
inductive Value : Type where
  | vnull : Value
  | vbool : Bool → Value
  | vnum : Rat → Value
  | vstr : String → Value
  | vlist : List Value → Value
  | vmodel : Value

/-- A Python dict with string keys, in insertion order. -/
abbrev Dict := List (String × Value)

/-- A test case payload (`TestCaseModel.model_dump(exclude_none=True)`)
is just a dict. -/
abbrev TestCase := Dict

/-- `d.get(k)` / `d[k]` lookup: first (unique) entry with key `k`. -/
def dget (d : Dict) (k : String) : Option Value :=
  match d.find? (fun p => p.1 == k) with
  | some p => some p.2
  | none => none

/-- Python `k in d` (key presence, regardless of the stored value). -/
def dContainsKey (d : Dict) (k : String) : Bool :=
  d.any (fun p => p.1 == k)

/-- Python `d.setdefault(k, v)`: inserts `(k, v)` at the end only when the
key is absent; a present key keeps its value, even `None`. -/
def dSetdefault (d : Dict) (k : String) (v : Value) : Dict :=
  if dContainsKey d k then d else d ++ [(k, v)]

/-- Python `d[k] = v`: replaces the value at an existing key in place,
otherwise appends the new entry at the end. -/
def dAssign (d : Dict) (k : String) (v : Value) : Dict :=
  if dContainsKey d k then d.map (fun p => if p.1 == k then (k, v) else p)
  else d ++ [(k, v)]

/-- Python truthiness of a `Value` (`bool(v)`). -/
def pyTruthy : Value → Bool
  | Value.vnull => false
  | Value.vbool b => b
  | Value.vnum q => decide (q ≠ 0)
  | Value.vstr s => match s.data with | [] => false | _ => true
  | Value.vlist l => match l with | [] => false | _ => true
  | Value.vmodel => true

/-- Python `x is None` for the result of a dict `.get`: true when the key
is absent or the stored value is `None`. -/
def pyIsNone (v : Option Value) : Bool :=
  match v with
  | none => true
  | some Value.vnull => true
  | some _ => false

/-- A raised Python exception. -/
inductive PyExc : Type where
  | valueError : String → PyExc
  | typeError : String → PyExc
  | zeroDivisionError : PyExc
  | runtimeError : String → PyExc
  | notImplementedError : String → PyExc
  | otherExc : String → String → PyExc
deriving DecidableEq

/-- `type(e).__name__` for a modelled exception. -/
def excName : PyExc → String
  | PyExc.valueError _ => "ValueError"
  | PyExc.typeError _ => "TypeError"
  | PyExc.zeroDivisionError => "ZeroDivisionError"
  | PyExc.runtimeError _ => "RuntimeError"
  | PyExc.notImplementedError _ => "NotImplementedError"
  | PyExc.otherExc n _ => n

/-- `str(e)` for a modelled exception. -/
def excMsg : PyExc → String
  | PyExc.valueError m => m
  | PyExc.typeError m => m
  | PyExc.zeroDivisionError => "division by zero"
  | PyExc.runtimeError m => m
  | PyExc.notImplementedError m => m
  | PyExc.otherExc _ m => m

/-- Python `len(v)` (only sized values; anything else raises `TypeError`). -/
def pyLen : Value → Except PyExc Nat
  | Value.vlist l => Except.ok l.length
  | Value.vstr s => Except.ok s.data.length
  | _ => Except.error (PyExc.typeError "object has no len()")

/-- Python whitespace recognized by `str.strip()`. -/
def isPySpace (c : Char) : Bool :=
  c == Char.ofNat 32 || c == Char.ofNat 9 || c == Char.ofNat 10 ||
  c == Char.ofNat 13 || c == Char.ofNat 11 || c == Char.ofNat 12

/-- Strip leading and trailing whitespace from a char list. -/
def chTrim (l : List Char) : List Char :=
  ((l.dropWhile isPySpace).reverse.dropWhile isPySpace).reverse

/-- Python `s.strip()`. -/
def pyStrip (s : String) : String := String.mk (chTrim s.data)

/-- Python `s.lower()` (ASCII, which is all the source uses). -/
def pyLower (s : String) : String := String.mk (s.data.map Char.toLower)

/-- Does the char list start with the given pattern? -/
def chStartsWith : List Char → List Char → Bool
  | [], _ => true
  | _ :: _, [] => false
  | p :: ps, c :: cs => p == c && chStartsWith ps cs

/-- Split at the first occurrence of `sep`: the part before it and the
part after it, or `none` when `sep` does not occur. -/
def chBreakOn (sep : List Char) : List Char → Option (List Char × List Char)
  | [] => if sep.isEmpty then some ([], []) else none
  | c :: cs =>
    if chStartsWith sep (c :: cs) then some ([], (c :: cs).drop sep.length)
    else
      match chBreakOn sep cs with
      | some (a, b) => some (c :: a, b)
      | none => none

/-- Fuelled worker for `pySplit`; the fuel is an upper bound on the number
of separator occurrences, so it never runs out in `pySplit`. -/
def chSplitOnFuel (sep : List Char) : Nat → List Char → List (List Char)
  | 0, l => [l]
  | fuel + 1, l =>
    match chBreakOn sep l with
    | none => [l]
    | some (a, b) => a :: chSplitOnFuel sep fuel b

/-- Python `s.split(sep)` for a nonempty separator. -/
def pySplit (s sep : String) : List String :=
  (chSplitOnFuel sep.data (s.data.length + 1) s.data).map String.mk

/-- Python `pat in s` for a nonempty pattern. -/
def strContains (s pat : String) : Bool := (chBreakOn pat.data s.data).isSome

/-- A single ASCII apostrophe, used by Python `repr` of a string. -/
def sqChar : String := String.singleton (Char.ofNat 39)

/-- Python `repr` of a string (no escaping needed for plain field names). -/
def pyRepr (s : String) : String := sqChar ++ s ++ sqChar

/-- Python `repr` of a list of strings, e.g. `[ a, b ]` with quotes. -/
def pyReprList (l : List String) : String :=
  "[" ++ String.intercalate ", " (l.map pyRepr) ++ "]"

/-- Decimal digits to a number, `none` when any char is not a digit or the
list is empty. -/
def pyDigits : List Char → Option Nat
  | [] => none
  | cs =>
    if cs.all Char.isDigit then
      some (cs.foldl (fun a c => a * 10 + (c.toNat - 48)) 0)
    else none

/-- Python `int(s)` for a decimal string literal: optional surrounding
whitespace, optional sign, then digits; anything else raises
`ValueError` (modelled as `none`). -/
def pyInt (s : String) : Option Int :=
  match (pyStrip s).data with
  | [] => none
  | c :: rest =>
    if c = '-' then (pyDigits rest).map (fun n => -(n : Int))
    else if c = '+' then (pyDigits rest).map (fun n => (n : Int))
    else (pyDigits (c :: rest)).map (fun n => (n : Int))

/-- `MetricDef` from `backend/schema_registry.py` (frozen dataclass). -/
structure MetricDef : Type where
  metric_id : String
  metric_name : String
  metric_class : String
  test_case_type : String
  required_test_case_fields : List String := []
  required_metric_init_params : List String := []
  optional_metric_init_params : List String := []
  threshold_semantics : String := "minimum_is_passing"
  constraints : List String := []
  conditional_fields : List String := []
  notes : List String := []
deriving DecidableEq

/-- `int(c_lower.split("exactly")[1].split("image")[0].strip())` from
`runner._apply_constraints`. -/
def parseExactlyCount (cl : String) : Except PyExc Int :=
  match (pySplit cl "exactly")[1]? with
  | none => Except.error (PyExc.otherExc "IndexError" "list index out of range")
  | some seg =>
    let numStr := pyStrip ((pySplit seg "image").headD "")
    match pyInt numStr with
    | some n => Except.ok n
    | none =>
      Except.error (PyExc.valueError
        ("invalid literal for int() with base 10: " ++ pyRepr numStr))

/-- `test_case.get(k) or []` from `runner._apply_constraints`. -/
def imagesOf (v : Option Value) : Value :=
  match v with
  | none => Value.vlist []
  | some w => if pyTruthy w then w else Value.vlist []

/-- The body of the `for c in metric_def.constraints` loop of
`runner._apply_constraints` for one constraint string `c`: the naive
image-count parser.  `int(...)` on a non-numeric count raises
(`Except.error`), exactly as in the source. -/
def applyOneConstraint (md : MetricDef) (tc : TestCase) (c : String) :
    Except PyExc (List String) := do
  let cl := pyStrip (pyLower c)
  let errs1 ←
    if strContains cl "input must contain exactly" && strContains cl "image" then do
      let required ← parseExactlyCount cl
      let n ← pyLen (imagesOf (dget tc "image_inputs"))
      if (n : Int) ≠ required then
        pure [md.metric_id ++ ": constraint failed: " ++ c ++ " (got " ++ toString n ++ ")"]
      else pure []
    else pure ([] : List String)
  let errs2 ←
    if strContains cl "actual_output must contain exactly" && strContains cl "image" then do
      let required ← parseExactlyCount cl
      let n ← pyLen (imagesOf (dget tc "image_outputs"))
      if (n : Int) ≠ required then
        pure [md.metric_id ++ ": constraint failed: " ++ c ++ " (got " ++ toString n ++ ")"]
      else pure []
    else pure ([] : List String)
  pure (errs1 ++ errs2)

/-- `runner._apply_constraints`: evaluates every constraint string of the
metric against one test case, in order, concatenating the violations;
a parse failure inside the loop propagates as a raised exception. -/
def _apply_constraints (md : MetricDef) (tc : TestCase) :
    Except PyExc (List String) :=
  go md.constraints
where
  go : List String → Except PyExc (List String)
    | [] => Except.ok []
    | c :: rest =>
      match applyOneConstraint md tc c with
      | Except.error e => Except.error e
      | Except.ok errs =>
        match go rest with
        | Except.error e => Except.error e
        | Except.ok es => Except.ok (errs ++ es)

/-- `runner._validate_required_fields`. -/
def _validate_required_fields (md : MetricDef) (tc : TestCase) : List String :=
  let missing := md.required_test_case_fields.filter (fun f => pyIsNone (dget tc f))
  if missing.isEmpty then []
  else [md.metric_id ++ ": missing required test-case fields: " ++ pyReprList missing]

/-- `runner._validate_required_init_params`. -/
def _validate_required_init_params (md : MetricDef) (ip : Dict) : List String :=
  let missing := md.required_metric_init_params.filter (fun p => pyIsNone (dget ip p))
  if missing.isEmpty then []
  else [md.metric_id ++ ": missing required metric init params: " ++ pyReprList missing]

/-- `runner._pass_fail`. -/
def _pass_fail (md : MetricDef) (score threshold : Rat) : Bool :=
  if md.threshold_semantics = "maximum_is_passing" then decide (score ≤ threshold)
  else decide (score ≥ threshold)

-- Smoke tests against hand-traced Python behaviour.
example :
    _apply_constraints
      { metric_id := "m", metric_name := "m", metric_class := "C",
        test_case_type := "LLMTestCase",
        constraints := ["input must contain exactly 1 image"] }
      [] =
    Except.ok ["m: constraint failed: input must contain exactly 1 image (got 0)"] := by
  rfl

example :
    _apply_constraints
      { metric_id := "m", metric_name := "m", metric_class := "C",
        test_case_type := "LLMTestCase",
        constraints := ["input must contain exactly two images"] }
      [] =
    Except.error (PyExc.valueError
      ("invalid literal for int() with base 10: " ++ pyRepr "two")) := by
  rfl

example :
    _apply_constraints
      { metric_id := "m", metric_name := "m", metric_class := "C",
        test_case_type := "LLMTestCase",
        constraints := ["answer must be short"] }
      [] = Except.ok [] := by
  rfl

example :
    _apply_constraints
      { metric_id := "m", metric_name := "m", metric_class := "C",
        test_case_type := "LLMTestCase",
        constraints := ["Input must contain exactly 2 images"] }
      [("image_inputs", Value.vlist [Value.vstr "a", Value.vstr "b"])] =
    Except.ok [] := by
  rfl

example : pyInt " 12 " = some 12 := by rfl
example : pyInt "two" = none := by rfl
example :
    _validate_required_fields
      { metric_id := "m", metric_name := "m", metric_class := "C",
        test_case_type := "LLMTestCase",
        required_test_case_fields := ["input", "actual_output"] }
      [("input", Value.vstr "x")] =
    ["m: missing required test-case fields: " ++ pyReprList ["actual_output"]] := by
  rfl

/-- A caller-supplied metric selection
(`MetricSelectionModel.model_dump()` from `backend/schemas_api.py`). -/
structure MetricSel : Type where
  metric_id : String
  threshold : Option Rat := none
  init_params : Dict := []

/-- One entry of the `results` list built by `runner.run_evaluation`.
Missing dict keys are `none` (the success entry has no `error` key, the
error entries have no `score`/`threshold`/`passed`/`reason` keys). -/
structure MetricResult : Type where
  metric_id : String
  metric_name : String
  score : Option Rat := none
  threshold : Option Rat := none
  passed : Option Bool := none
  reason : Option String := none
  error : Option String := none
  cost_signal : Option String := none
deriving DecidableEq

/-- One entry of `evidence["gaps"]`. -/
structure Gap : Type where
  metric_id : String
  gap : String
deriving DecidableEq

/-- One entry of `evidence["metric_evidence"]`. -/
structure MetricEvid : Type where
  metric_id : String
  metric_class : String
  scores : List Rat
  reasons : List String
deriving DecidableEq

/-- The external scorer object obtained from
`resolve_metric_class(...)​(**init_params)`: `measure` abstracts one
`metric_obj.measure(tco)` call (composed with the test-case adapter)
followed by reading `metric_obj.score` and `metric_obj.reason`; a raised
exception is `Except.error`.  `threshold` abstracts
`getattr(metric_obj, "threshold", None)`. -/
structure Scorer : Type where
  measure : TestCase → Except PyExc (Option Rat × Option String)
  threshold : Option Rat := none

/-- The resolution oracle: `resolve_metric_class(metric_def.metric_class)`
followed by `MetricCls(**init_params)`; an exception from either step is
`Except.error` (both are caught by the same handler in the source). -/
abbrev ResolveFn := String → Dict → Except PyExc Scorer

/-- Lines 122-124 of `runner.run_evaluation`: merge a non-null threshold
override into the init params without overriding a caller value. -/
def mergeThreshold (ip : Dict) (ov : Option Rat) : Dict :=
  match ov with
  | none => ip
  | some t => dSetdefault ip "threshold" (Value.vnum t)

/-- `runner._configure_ollama_model`: inject the default judge model when
the caller supplied none and the metric can take one. -/
def _configure_ollama_model (ip : Dict) (md : MetricDef) : Dict :=
  if dContainsKey ip "model" then ip
  else if md.optional_metric_init_params.contains "model" then
    dAssign ip "model" Value.vmodel
  else ip

/-- The fully merged init params a selection reaches validation with
(threshold override merged, then judge-model injection). -/
def mergedInitParams (msel : MetricSel) (md : MetricDef) : Dict :=
  _configure_ollama_model (mergeThreshold msel.init_params msel.threshold) md

/-- Gap message for the conversational kind (lines 173-177). -/
def convGapMsg : String := "ConversationalTestCase execution not implemented in v1."

/-- Gap message for the arena kind (lines 178-183). -/
def arenaGapMsg : String := "ArenaTestCase execution not implemented in v1."

/-- `NotImplementedError` message for the conversational kind. -/
def convErrMsg : String := "Conversational metrics not runnable in v1."

/-- `NotImplementedError` message for the arena kind. -/
def arenaErrMsg : String := "Arena metrics not runnable in v1."

/-- The `for tc in test_cases` loop of `runner.run_evaluation`
(lines 168-195): builds the per-test-case score and reason lists; the
first component is the loop outcome (a raised exception propagates to the
handlers), the second is the list of entries appended to
`evidence["gaps"]` before the raise. -/
def measureLoop (md : MetricDef) (sc : Scorer) :
    List TestCase → Except PyExc (List Rat × List String) × List Gap
  | [] => (Except.ok ([], []), [])
  | tc :: rest =>
    if md.test_case_type = "LLMTestCase" then
      match sc.measure tc with
      | Except.error e => (Except.error e, [])
      | Except.ok (scoreOpt, reasonOpt) =>
        match scoreOpt with
        | none =>
          (Except.error (PyExc.runtimeError
            "Metric returned no score (metric_obj.score is None)."), [])
        | some s =>
          let rkeep : List String :=
            match reasonOpt with
            | some r => if (pyStrip r).data.isEmpty then [] else [pyStrip r]
            | none => []
          match measureLoop md sc rest with
          | (Except.ok (ss, rs), gaps) => (Except.ok (s :: ss, rkeep ++ rs), gaps)
          | (Except.error e, gaps) => (Except.error e, gaps)
    else if md.test_case_type = "ConversationalTestCase" then
      (Except.error (PyExc.notImplementedError convErrMsg),
       [{ metric_id := md.metric_id, gap := convGapMsg }])
    else if md.test_case_type = "ArenaTestCase" then
      (Except.error (PyExc.notImplementedError arenaErrMsg),
       [{ metric_id := md.metric_id, gap := arenaGapMsg }])
    else
      (Except.error (PyExc.valueError
        ("Unknown test_case_type: " ++ md.test_case_type)), [])

/-- Lines 197-211 of `runner.run_evaluation`: aggregate the collected
scores (mean; an empty list raises `ZeroDivisionError`), read the
scorer threshold, derive `passed`, and build the success result entry. -/
def aggregate (md : MetricDef) (sc : Scorer) (ip : Dict)
    (scores : List Rat) (reasons : List String) : Except PyExc MetricResult :=
  if scores.length = 0 then Except.error PyExc.zeroDivisionError
  else
    let avg := scores.sum / (scores.length : Rat)
    let passed :=
      match sc.threshold with
      | none => none
      | some t => some (_pass_fail md avg t)
    Except.ok
      { metric_id := md.metric_id
        metric_name := md.metric_name
        score := some avg
        threshold := sc.threshold
        passed := passed
        reason := reasons.head?
        cost_signal := some (if dContainsKey ip "model" then "llm_based"
                             else "deterministic_or_unknown") }

/-- The error result entry shared by all failure paths of the loop body
(`metric_id` / `metric_name` from the definition, only `error` set). -/
def errResult (md : MetricDef) (msg : String) : MetricResult :=
  { metric_id := md.metric_id, metric_name := md.metric_name, error := some msg }

/-- The result entry for an unknown `metric_id` (lines 113-119). -/
def unknownResult (mid : String) : MetricResult :=
  { metric_id := mid, metric_name := mid,
    error := some "Unknown metric_id (not found in schema)." }

/-- Test-case level validation (lines 139-142): required fields then
constraints for each test case in order, all violations concatenated; a
constraint-parser exception propagates out of `run_evaluation`. -/
def collectTcErrors (md : MetricDef) : List TestCase → Except PyExc (List String)
  | [] => Except.ok []
  | tc :: rest =>
    match _apply_constraints md tc with
    | Except.error e => Except.error e
    | Except.ok ce =>
      match collectTcErrors md rest with
      | Except.error e => Except.error e
      | Except.ok es => Except.ok (_validate_required_fields md tc ++ ce ++ es)

/-- The truncated per-metric validation error string (line 148). -/
def truncatedErrors (tc_errors : List String) : String :=
  String.intercalate "; " (tc_errors.take 5) ++
    (if 5 < tc_errors.length then " ..." else "")

/-- Metric-index lookup (`metric_index.get(metric_id)`). -/
def lookupIdx (idx : List (String × MetricDef)) (k : String) : Option MetricDef :=
  (idx.find? (fun p => p.1 == k)).map (fun p => p.2)

/-- One iteration of the `for msel in metrics` loop of
`runner.run_evaluation`: the result entry appended for this selection,
the entries appended to `evidence["gaps"]`, and the entries appended to
`evidence["metric_evidence"]`.  `Except.error` is an exception escaping
the loop body (only the constraint parser can raise outside a `try`). -/
def selOutcome (resolve : ResolveFn) (idx : List (String × MetricDef))
    (tcs : List TestCase) (msel : MetricSel) :
    Except PyExc (MetricResult × List Gap × List MetricEvid) :=
  match lookupIdx idx msel.metric_id with
  | none => Except.ok (unknownResult msel.metric_id, [], [])
  | some md =>
    let ip := mergedInitParams msel md
    let init_errs := _validate_required_init_params md ip
    if ¬ init_errs.isEmpty then
      Except.ok (errResult md (String.intercalate "; " init_errs), [], [])
    else
      match collectTcErrors md tcs with
      | Except.error e => Except.error e
      | Except.ok tc_errors =>
        if ¬ tc_errors.isEmpty then
          Except.ok (errResult md (truncatedErrors tc_errors), [], [])
        else
          match resolve md.metric_class ip with
          | Except.error e =>
            Except.ok (errResult md
              ("Metric init failed: " ++ excName e ++ ": " ++ excMsg e), [], [])
          | Except.ok sc =>
            match measureLoop md sc tcs with
            | (Except.ok (scores, reasons), gaps) =>
              (match aggregate md sc ip scores reasons with
               | Except.ok r =>
                 Except.ok (r, gaps,
                   [{ metric_id := md.metric_id, metric_class := md.metric_class,
                      scores := scores, reasons := reasons.take 3 }])
               | Except.error (PyExc.notImplementedError m) =>
                 Except.ok (errResult md m, gaps, [])
               | Except.error e =>
                 Except.ok (errResult md
                   ("Execution failed: " ++ excName e ++ ": " ++ excMsg e), gaps, []))
            | (Except.error (PyExc.notImplementedError m), gaps) =>
              Except.ok (errResult md m, gaps, [])
            | (Except.error e, gaps) =>
              Except.ok (errResult md
                ("Execution failed: " ++ excName e ++ ": " ++ excMsg e), gaps, [])

/-- The accumulating run state of `runner.run_evaluation`: the `results`
list and the mutable parts of the evidence document the claims are about. -/
structure RunState : Type where
  results : List MetricResult
  gaps : List Gap
  metric_evidence : List MetricEvid
deriving DecidableEq

/-- One loop iteration acting on the run state. -/
def runSelection (resolve : ResolveFn) (idx : List (String × MetricDef))
    (tcs : List TestCase) (st : RunState) (msel : MetricSel) :
    Except PyExc RunState :=
  match selOutcome resolve idx tcs msel with
  | Except.error e => Except.error e
  | Except.ok (r, g, ev) =>
    Except.ok { results := st.results ++ [r], gaps := st.gaps ++ g,
                metric_evidence := st.metric_evidence ++ ev }

/-- The `for msel in metrics` loop. -/
def runFold (resolve : ResolveFn) (idx : List (String × MetricDef))
    (tcs : List TestCase) : List MetricSel → RunState → Except PyExc RunState
  | [], st => Except.ok st
  | m :: ms, st =>
    match runSelection resolve idx tcs st m with
    | Except.error e => Except.error e
    | Except.ok st2 => runFold resolve idx tcs ms st2

/-- `runner.run_evaluation`, modulo the externally generated `run_id`,
timestamps and the request echo stored in the evidence: processes every
metric selection in order against the shared test-case list, starting
from empty `results` / `gaps` / `metric_evidence` accumulators.
An uncaught exception (the constraint parser is the only source) is
`Except.error`. -/
def run_evaluation (resolve : ResolveFn) (idx : List (String × MetricDef))
    (metrics : List MetricSel) (tcs : List TestCase) : Except PyExc RunState :=
  runFold resolve idx tcs metrics { results := [], gaps := [], metric_evidence := [] }

/-- State-free normal form of the loop: the per-selection outcomes
concatenated.  `runFold_eq_foldOutcome` shows `run_evaluation` equals it. -/
def foldOutcome (resolve : ResolveFn) (idx : List (String × MetricDef))
    (tcs : List TestCase) :
    List MetricSel → Except PyExc (List MetricResult × List Gap × List MetricEvid)
  | [] => Except.ok ([], [], [])
  | m :: ms =>
    match selOutcome resolve idx tcs m with
    | Except.error e => Except.error e
    | Except.ok (r, g, ev) =>
      match foldOutcome resolve idx tcs ms with
      | Except.error e => Except.error e
      | Except.ok (rs, gs, evs) => Except.ok (r :: rs, g ++ gs, ev ++ evs)

/-- Python truthiness of `r.get("error")` in `app.evaluate`. -/
def truthyErr (v : Option String) : Bool :=
  match v with
  | none => false
  | some s => match s.data with | [] => false | _ => true

/-- Lines 49-56 of `backend/app.py` (`evaluate`): derive the overall run
status from the raw results.  `any(r.get("passed") is False for r in
raw_results if r.get("passed") is not None)` is exactly
`passed = some false`. -/
def overall_status (rs : List MetricResult) : String :=
  let any_fail := rs.any (fun r => r.passed == some false)
  let any_error := rs.any (fun r => truthyErr r.error)
  if any_fail then "FAIL" else if any_error then "WARNING" else "PASS"

/-- A raw metric entry of the catalogue as `build_metric_index` reads it:
`metric_id`, `metric_class` and `test_case_type` are accessed with `[...]`
(required), the rest with `.get` and a default.  `none` models an absent
key. -/
structure RawMetric : Type where
  metric_id : String
  metric_name : Option String := none
  metric_class : String
  test_case_type : String
  required_test_case_fields : Option (List String) := none
  required_metric_init_params : Option (List String) := none
  optional_metric_init_params : Option (List String) := none
  threshold_semantics : Option String := none
  constraints : Option (List String) := none
  conditional_fields : Option (List String) := none
  notes : Option (List String) := none
deriving DecidableEq

/-- One category under `eval_types` (`category.get("metrics") or []`). -/
structure RawCategory : Type where
  metrics : Option (List RawMetric) := none
deriving DecidableEq

/-- The loaded schema document (`schema.get("eval_types", {}) or {}`),
categories in insertion order. -/
structure RawSchema : Type where
  eval_types : List (String × RawCategory) := []
deriving DecidableEq

/-- The `MetricDef(...)` constructor call inside `build_metric_index`. -/
def toMetricDef (m : RawMetric) : MetricDef :=
  { metric_id := m.metric_id
    metric_name := m.metric_name.getD m.metric_id
    metric_class := m.metric_class
    test_case_type := m.test_case_type
    required_test_case_fields := m.required_test_case_fields.getD []
    required_metric_init_params := m.required_metric_init_params.getD []
    optional_metric_init_params := m.optional_metric_init_params.getD []
    threshold_semantics := m.threshold_semantics.getD "minimum_is_passing"
    constraints := m.constraints.getD []
    conditional_fields := m.conditional_fields.getD []
    notes := m.notes.getD [] }

/-- Python dict assignment `idx[metric_id] = ...` on the index. -/
def dAssignDef (d : List (String × MetricDef)) (k : String) (v : MetricDef) :
    List (String × MetricDef) :=
  if d.any (fun p => p.1 == k) then
    d.map (fun p => if p.1 == k then (k, v) else p)
  else d ++ [(k, v)]

/-- The metric entries of a schema in iteration order (categories in
order, each category's `metrics` list in order). -/
def schemaEntries (s : RawSchema) : List RawMetric :=
  s.eval_types.foldr (fun p acc => (p.2.metrics.getD []) ++ acc) []

/-- Fold of the index-building loop over a list of entries. -/
def buildIdxFold (l : List RawMetric) (acc : List (String × MetricDef)) :
    List (String × MetricDef) :=
  l.foldl (fun idx m => dAssignDef idx m.metric_id (toMetricDef m)) acc

/-- `schema_registry.build_metric_index`: nested loop over categories and
their metric entries, assigning `idx[metric_id] = MetricDef(...)`. -/
def build_metric_index (s : RawSchema) : List (String × MetricDef) :=
  s.eval_types.foldl
    (fun idx p => buildIdxFold (p.2.metrics.getD []) idx) []


-- Helper lemmas about the dict operations and the index fold.

theorem find?_assign_of_ne (d : List (String × MetricDef)) (k k2 : String)
    (v : MetricDef) (h : k2 ≠ k) :
    List.find? (fun p => p.1 == k2)
        (d.map (fun p => if p.1 == k then (k, v) else p)) =
      List.find? (fun p => p.1 == k2) d := by
  induction d with
  | nil => rfl
  | cons p d ih =>
    by_cases hpk : p.1 = k
    · have h1 : (p.1 == k2) = false := by
        rw [beq_eq_false_iff_ne, hpk]
        exact Ne.symm h
      have h2 : ((k, v).1 == k2) = false := by
        rw [beq_eq_false_iff_ne]
        exact Ne.symm h
      simp only [List.map_cons, List.find?, hpk, beq_self_eq_true, if_true, h1, h2, ih]
    · have h1 : (p.1 == k) = false := beq_eq_false_iff_ne.mpr hpk
      simp only [List.map_cons, List.find?, h1, Bool.false_eq_true, if_false]
      cases hpk2 : (p.1 == k2) with
      | true => rfl
      | false => exact ih

theorem find?_assign_self (d : List (String × MetricDef)) (k : String)
    (v : MetricDef) (hmem : d.any (fun p => p.1 == k) = true) :
    List.find? (fun p => p.1 == k)
        (d.map (fun p => if p.1 == k then (k, v) else p)) = some (k, v) := by
  induction d with
  | nil => simp at hmem
  | cons p d ih =>
    by_cases hpk : p.1 = k
    · simp only [List.map_cons, List.find?, hpk, beq_self_eq_true, if_true]
    · have h1 : (p.1 == k) = false := beq_eq_false_iff_ne.mpr hpk
      simp only [List.any_cons, h1, Bool.false_or] at hmem
      simp only [List.map_cons, List.find?, h1, Bool.false_eq_true, if_false]
      exact ih hmem

theorem lookupIdx_dAssignDef (d : List (String × MetricDef)) (k k2 : String)
    (v : MetricDef) :
    lookupIdx (dAssignDef d k v) k2 =
      if k2 = k then some v else lookupIdx d k2 := by
  unfold lookupIdx dAssignDef
  by_cases hmem : d.any (fun p => p.1 == k) = true
  · rw [if_pos hmem]
    by_cases h : k2 = k
    · subst h
      rw [find?_assign_self d k2 v hmem, if_pos rfl]
      rfl
    · rw [find?_assign_of_ne d k k2 v h, if_neg h]
  · rw [if_neg hmem]
    by_cases h : k2 = k
    · subst h
      have hfind : List.find? (fun p => p.1 == k2) d = none := by
        rw [List.find?_eq_none]
        intro p hp
        intro hbeq
        exact hmem (List.any_eq_true.mpr ⟨p, hp, hbeq⟩)
      rw [List.find?_append, hfind, if_pos rfl]
      simp [List.find?]
    · rw [List.find?_append]
      cases hfind : List.find? (fun p => p.1 == k2) d with
      | some q => simp [if_neg h]
      | none =>
        have h2 : ((k, v).1 == k2) = false := by
          rw [beq_eq_false_iff_ne]
          exact Ne.symm h
        simp [List.find?, h2, if_neg h]

/-- Last-wins characterization of the index fold over a flat entry list. -/
theorem lookup_buildIdxFold (l : List RawMetric)
    (acc : List (String × MetricDef)) (mid : String) :
    lookupIdx (buildIdxFold l acc) mid =
      match (l.filter (fun m => m.metric_id == mid)).getLast? with
      | some m => some (toMetricDef m)
      | none => lookupIdx acc mid := by
  induction l generalizing acc with
  | nil => rfl
  | cons m l ih =>
    simp only [buildIdxFold, List.foldl_cons] at *
    rw [ih]
    by_cases hm : m.metric_id = mid
    · have hb : (m.metric_id == mid) = true := beq_iff_eq.mpr hm
      simp only [List.filter_cons, hb, if_true]
      cases hlast : (l.filter (fun m => m.metric_id == mid)).getLast? with
      | some m2 =>
        simp only [List.getLast?_cons, hlast]
        rfl
      | none =>
        have : l.filter (fun m => m.metric_id == mid) = [] := by
          cases hf : l.filter (fun m => m.metric_id == mid) with
          | nil => rfl
          | cons a as => rw [hf] at hlast; simp [List.getLast?] at hlast
        rw [this]
        simp only [List.getLast?_singleton]
        rw [lookupIdx_dAssignDef, if_pos (hm.symm ▸ rfl)]
    · have hb : (m.metric_id == mid) = false := beq_eq_false_iff_ne.mpr hm
      simp only [List.filter_cons, hb, Bool.false_eq_true, if_false]
      cases hlast : (l.filter (fun m => m.metric_id == mid)).getLast? with
      | some m2 => rfl
      | none =>
        rw [lookupIdx_dAssignDef, if_neg (fun h => hm h.symm)]

/-- The nested category loop equals the fold over the flattened entries. -/
theorem build_metric_index_eq_fold (s : RawSchema) :
    build_metric_index s = buildIdxFold (schemaEntries s) [] := by
  suffices h : ∀ (cats : List (String × RawCategory)) (acc : List (String × MetricDef)),
      cats.foldl (fun idx p => buildIdxFold (p.2.metrics.getD []) idx) acc =
        buildIdxFold (cats.foldr (fun p a => (p.2.metrics.getD []) ++ a) []) acc by
    exact h s.eval_types []
  intro cats
  induction cats with
  | nil => intro acc; rfl
  | cons c cs ih =>
    intro acc
    simp only [List.foldl_cons, List.foldr_cons]
    rw [ih]
    unfold buildIdxFold
    rw [List.foldl_append]

/-- C10: in a catalogue where two (or more) metric entries declare the
same `metric_id`, `build_metric_index` raises nothing (it is total) and
the index maps that id to the `MetricDef` built from the last such entry
in iteration order; earlier duplicates are silently overwritten. -/
theorem build_metric_index_duplicate_last_wins (s : RawSchema) (mid : String)
    (hdup : 2 ≤ ((schemaEntries s).filter (fun m => m.metric_id == mid)).length) :
    ∃ mLast,
      ((schemaEntries s).filter (fun m => m.metric_id == mid)).getLast? = some mLast ∧
      lookupIdx (build_metric_index s) mid = some (toMetricDef mLast) := by
  have hne : (schemaEntries s).filter (fun m => m.metric_id == mid) ≠ [] := by
    intro h
    rw [h] at hdup
    simp at hdup
  cases hlast : ((schemaEntries s).filter (fun m => m.metric_id == mid)).getLast? with
  | none =>
    exact absurd (List.getLast?_eq_none_iff.mp hlast) hne
  | some mLast =>
    refine ⟨mLast, rfl, ?_⟩
    rw [build_metric_index_eq_fold, lookup_buildIdxFold, hlast]

/-- Concrete duplicate catalogue for the C10 witness: category `cat` holds
two entries with id `"m.dup"`, differing in `metric_class`. -/
def dupSchema : RawSchema :=
  { eval_types :=
      [("cat",
        { metrics := some
            [{ metric_id := "m.dup", metric_class := "FirstCls",
               test_case_type := "LLMTestCase" },
             { metric_id := "m.dup", metric_class := "SecondCls",
               test_case_type := "LLMTestCase" }] })] }

/-- Witness for C10 at a concrete two-entry catalogue: the duplicate
hypothesis holds and the index maps `"m.dup"` to the second entry. -/
theorem build_metric_index_duplicate_last_wins_witness :
    (2 ≤ ((schemaEntries dupSchema).filter
        (fun m => m.metric_id == "m.dup")).length) ∧
    ∃ mLast,
      ((schemaEntries dupSchema).filter
          (fun m => m.metric_id == "m.dup")).getLast? = some mLast ∧
      lookupIdx (build_metric_index dupSchema) "m.dup" = some (toMetricDef mLast) :=
  ⟨by decide, build_metric_index_duplicate_last_wins dupSchema "m.dup" (by decide)⟩

/-- C3: the derived overall status is FAIL exactly when some result has
`passed` explicitly false; otherwise WARNING exactly when some result has
a truthy (non-empty) `error`; otherwise PASS.  `passed = none` never
causes a FAIL. -/
theorem overall_status_worst_signal_wins (rs : List MetricResult) :
    (overall_status rs = "FAIL" ↔ ∃ r ∈ rs, r.passed = some false) ∧
    (overall_status rs = "WARNING" ↔
      (¬ ∃ r ∈ rs, r.passed = some false) ∧ ∃ r ∈ rs, truthyErr r.error = true) ∧
    (overall_status rs = "PASS" ↔
      (¬ ∃ r ∈ rs, r.passed = some false) ∧
        ¬ ∃ r ∈ rs, truthyErr r.error = true) := by
  have hfail : rs.any (fun r => r.passed == some false) = true ↔
      ∃ r ∈ rs, r.passed = some false := by
    simp [List.any_eq_true]
  have herr : rs.any (fun r => truthyErr r.error) = true ↔
      ∃ r ∈ rs, truthyErr r.error = true := by
    simp [List.any_eq_true]
  unfold overall_status
  by_cases hf : rs.any (fun r => r.passed == some false) = true
  · simp only [hf, if_true]
    exact ⟨⟨fun _ => hfail.mp hf, fun _ => trivial⟩,
           ⟨fun h => absurd h (by decide), fun h => absurd (hfail.mp hf) h.1⟩,
           ⟨fun h => absurd h (by decide), fun h => absurd (hfail.mp hf) h.1⟩⟩
  · have nf : ¬ ∃ r ∈ rs, r.passed = some false := fun hex => hf (hfail.mpr hex)
    have hf2 : rs.any (fun r => r.passed == some false) = false :=
      Bool.eq_false_iff.mpr hf
    simp only [hf2, Bool.false_eq_true, if_false]
    by_cases he : rs.any (fun r => truthyErr r.error) = true
    · simp only [he, if_true]
      exact ⟨⟨fun h => absurd h (by decide), fun hex => absurd hex nf⟩,
             ⟨fun _ => ⟨nf, herr.mp he⟩, fun _ => trivial⟩,
             ⟨fun h => absurd h (by decide), fun h => absurd (herr.mp he) h.2⟩⟩
    · have ne2 : ¬ ∃ r ∈ rs, truthyErr r.error = true :=
        fun hex => he (herr.mpr hex)
      have he2 : rs.any (fun r => truthyErr r.error) = false :=
        Bool.eq_false_iff.mpr he
      simp only [he2, Bool.false_eq_true, if_false]
      exact ⟨⟨fun h => absurd h (by decide), fun hex => absurd hex nf⟩,
             ⟨fun h => absurd h (by decide), fun h => absurd h.2 ne2⟩,
             ⟨fun _ => ⟨nf, ne2⟩, fun _ => trivial⟩⟩

-- Normal-form lemmas for the metric loop.

/-- The loop from any accumulator state equals the concatenated
per-selection outcomes. -/
theorem runFold_eq_foldOutcome (resolve : ResolveFn)
    (idx : List (String × MetricDef)) (tcs : List TestCase)
    (ms : List MetricSel) (st : RunState) :
    runFold resolve idx tcs ms st =
      match foldOutcome resolve idx tcs ms with
      | Except.error e => Except.error e
      | Except.ok (rs, gs, evs) =>
        Except.ok { results := st.results ++ rs, gaps := st.gaps ++ gs,
                    metric_evidence := st.metric_evidence ++ evs } := by
  induction ms generalizing st with
  | nil => simp [runFold, foldOutcome]
  | cons m ms ih =>
    simp only [runFold, foldOutcome, runSelection]
    cases hsel : selOutcome resolve idx tcs m with
    | error e => rfl
    | ok out =>
      obtain ⟨r, g, ev⟩ := out
      dsimp only
      rw [ih]
      cases hfold : foldOutcome resolve idx tcs ms with
      | error e => rfl
      | ok out2 =>
        obtain ⟨rs, gs, evs⟩ := out2
        dsimp only
        simp [List.append_assoc]

/-- Splitting the per-selection outcomes at a list append. -/
theorem foldOutcome_append (resolve : ResolveFn)
    (idx : List (String × MetricDef)) (tcs : List TestCase)
    (xs ys : List MetricSel) :
    foldOutcome resolve idx tcs (xs ++ ys) =
      match foldOutcome resolve idx tcs xs with
      | Except.error e => Except.error e
      | Except.ok (rs, gs, evs) =>
        match foldOutcome resolve idx tcs ys with
        | Except.error e => Except.error e
        | Except.ok (rs2, gs2, evs2) =>
          Except.ok (rs ++ rs2, gs ++ gs2, evs ++ evs2) := by
  induction xs with
  | nil =>
    simp only [List.nil_append, foldOutcome]
    cases foldOutcome resolve idx tcs ys with
    | error e => rfl
    | ok out => obtain ⟨rs2, gs2, evs2⟩ := out; simp
  | cons x xs ih =>
    simp only [List.cons_append, foldOutcome]
    cases hsel : selOutcome resolve idx tcs x with
    | error e => rfl
    | ok out =>
      obtain ⟨r, g, ev⟩ := out
      dsimp only
      simp only [List.append_eq]
      rw [ih]
      cases hx : foldOutcome resolve idx tcs xs with
      | error e => rfl
      | ok out2 =>
        obtain ⟨rs, gs, evs⟩ := out2
        cases hy : foldOutcome resolve idx tcs ys with
        | error e => rfl
        | ok out3 =>
          obtain ⟨rs2, gs2, evs2⟩ := out3
          dsimp only
          simp [List.append_assoc]

/-- Field values of the success entry built by `aggregate`. -/
theorem aggregate_ok_fields (md : MetricDef) (sc : Scorer) (ip : Dict)
    (scores : List Rat) (reasons : List String) (r : MetricResult)
    (h : aggregate md sc ip scores reasons = Except.ok r) :
    r.metric_id = md.metric_id ∧ r.metric_name = md.metric_name ∧
    r.score = some (scores.sum / (scores.length : Rat)) ∧
    r.threshold = sc.threshold ∧
    r.passed = (match sc.threshold with
                | none => none
                | some t =>
                  some (_pass_fail md (scores.sum / (scores.length : Rat)) t)) ∧
    r.error = none := by
  unfold aggregate at h
  split at h
  · exact absurd h (by simp)
  · simp only [Except.ok.injEq] at h
    subst h
    exact ⟨rfl, rfl, rfl, rfl, rfl, rfl⟩

/-- An index built by `build_metric_index` is consistent: each stored
definition carries the id it is indexed under. -/
theorem build_metric_index_consistent (s : RawSchema) :
    ∀ k md, lookupIdx (build_metric_index s) k = some md → md.metric_id = k := by
  intro k md h
  rw [build_metric_index_eq_fold, lookup_buildIdxFold] at h
  cases hlast : ((schemaEntries s).filter (fun m => m.metric_id == k)).getLast? with
  | none => rw [hlast] at h; exact absurd h (by simp [lookupIdx])
  | some m =>
    rw [hlast] at h
    simp only [Option.some.injEq] at h
    subst h
    have hmem : m ∈ (schemaEntries s).filter (fun m => m.metric_id == k) := by
      obtain ⟨hne, he⟩ := List.mem_getLast?_eq_getLast (l := _) (x := m) hlast
      rw [he]
      exact List.getLast_mem hne
    have := (List.mem_filter.mp hmem).2
    exact beq_iff_eq.mp this

/-- The per-selection invariant of C2: the entry carries the selection's
`metric_id` and exactly one terminal outcome — a score with no error, or
an error with no score. -/
def TerminalEntry (msel : MetricSel) (r : MetricResult) : Prop :=
  r.metric_id = msel.metric_id ∧
  ((r.score.isSome = true ∧ r.error = none) ∨
   (r.error.isSome = true ∧ r.score = none))

theorem terminal_of_errResult (msel : MetricSel) (md : MetricDef) (msg : String)
    (hmd : md.metric_id = msel.metric_id) :
    TerminalEntry msel (errResult md msg) :=
  ⟨hmd, Or.inr ⟨rfl, rfl⟩⟩

/-- Every normally returned per-selection outcome is a terminal entry
(provided the index stores each definition under its own id). -/
theorem selOutcome_terminal (resolve : ResolveFn)
    (idx : List (String × MetricDef)) (tcs : List TestCase) (msel : MetricSel)
    (r : MetricResult) (g : List Gap) (ev : List MetricEvid)
    (hidx : ∀ k md, lookupIdx idx k = some md → md.metric_id = k)
    (h : selOutcome resolve idx tcs msel = Except.ok (r, g, ev)) :
    TerminalEntry msel r := by
  unfold selOutcome at h
  cases hlk : lookupIdx idx msel.metric_id with
  | none =>
    rw [hlk] at h
    dsimp only at h
    simp only [Except.ok.injEq, Prod.mk.injEq] at h
    obtain ⟨h1, -, -⟩ := h
    subst h1
    exact ⟨rfl, Or.inr ⟨rfl, rfl⟩⟩
  | some md =>
    rw [hlk] at h
    have hmd : md.metric_id = msel.metric_id := hidx _ _ hlk
    dsimp only at h
    split at h
    · simp only [Except.ok.injEq, Prod.mk.injEq] at h
      obtain ⟨h1, -, -⟩ := h
      subst h1
      exact terminal_of_errResult _ _ _ hmd
    · split at h
      · exact absurd h (by simp)
      · split at h
        · simp only [Except.ok.injEq, Prod.mk.injEq] at h
          obtain ⟨h1, -, -⟩ := h
          subst h1
          exact terminal_of_errResult _ _ _ hmd
        · split at h
          · simp only [Except.ok.injEq, Prod.mk.injEq] at h
            obtain ⟨h1, -, -⟩ := h
            subst h1
            exact terminal_of_errResult _ _ _ hmd
          · split at h
            · split at h
              · rename_i heqagg
                simp only [Except.ok.injEq, Prod.mk.injEq] at h
                obtain ⟨h1, -, -⟩ := h
                subst h1
                obtain ⟨f1, -, f3, -, -, f6⟩ :=
                  aggregate_ok_fields _ _ _ _ _ _ heqagg
                refine ⟨f1.trans hmd, Or.inl ⟨?_, f6⟩⟩
                rw [f3]
                rfl
              · simp only [Except.ok.injEq, Prod.mk.injEq] at h
                obtain ⟨h1, -, -⟩ := h
                subst h1
                exact terminal_of_errResult _ _ _ hmd
              · simp only [Except.ok.injEq, Prod.mk.injEq] at h
                obtain ⟨h1, -, -⟩ := h
                subst h1
                exact terminal_of_errResult _ _ _ hmd
            · simp only [Except.ok.injEq, Prod.mk.injEq] at h
              obtain ⟨h1, -, -⟩ := h
              subst h1
              exact terminal_of_errResult _ _ _ hmd
            · simp only [Except.ok.injEq, Prod.mk.injEq] at h
              obtain ⟨h1, -, -⟩ := h
              subst h1
              exact terminal_of_errResult _ _ _ hmd

/-- The outcome list pairs up with the selection list. -/
theorem foldOutcome_terminal (resolve : ResolveFn)
    (idx : List (String × MetricDef)) (tcs : List TestCase)
    (hidx : ∀ k md, lookupIdx idx k = some md → md.metric_id = k) :
    ∀ (ms : List MetricSel) rs gs evs,
      foldOutcome resolve idx tcs ms = Except.ok (rs, gs, evs) →
      List.Forall₂ TerminalEntry ms rs := by
  intro ms
  induction ms with
  | nil =>
    intro rs gs evs h
    simp only [foldOutcome, Except.ok.injEq, Prod.mk.injEq] at h
    obtain ⟨h1, -, -⟩ := h
    subst h1
    exact List.Forall₂.nil
  | cons m ms ih =>
    intro rs gs evs h
    simp only [foldOutcome] at h
    cases hsel : selOutcome resolve idx tcs m with
    | error e => rw [hsel] at h; exact absurd h (by simp)
    | ok out =>
      obtain ⟨r, g, ev⟩ := out
      rw [hsel] at h
      dsimp only at h
      cases hrest : foldOutcome resolve idx tcs ms with
      | error e => rw [hrest] at h; exact absurd h (by simp)
      | ok out2 =>
        obtain ⟨rs2, gs2, evs2⟩ := out2
        rw [hrest] at h
        dsimp only at h
        simp only [Except.ok.injEq, Prod.mk.injEq] at h
        obtain ⟨h1, -, -⟩ := h
        subst h1
        exact List.Forall₂.cons
          (selOutcome_terminal resolve idx tcs m r g ev hidx hsel)
          (ih rs2 gs2 evs2 hrest)

/-- C2: whenever `run_evaluation` returns normally (no constraint-parser
exception escapes, see the companion counterexample) and the index stores
each definition under its own id (as `build_metric_index` guarantees),
the results list has exactly one entry per metric selection, in order,
each carrying that selection's `metric_id` and exactly one terminal
outcome: a score with no error, or an error with no score. -/
theorem run_evaluation_one_result_per_selection (resolve : ResolveFn)
    (idx : List (String × MetricDef)) (metrics : List MetricSel)
    (tcs : List TestCase) (st : RunState)
    (hidx : ∀ k md, lookupIdx idx k = some md → md.metric_id = k)
    (h : run_evaluation resolve idx metrics tcs = Except.ok st) :
    st.results.length = metrics.length ∧
    List.Forall₂ TerminalEntry metrics st.results := by
  unfold run_evaluation at h
  rw [runFold_eq_foldOutcome] at h
  cases hfold : foldOutcome resolve idx tcs metrics with
  | error e => rw [hfold] at h; exact absurd h (by simp)
  | ok out =>
    obtain ⟨rs, gs, evs⟩ := out
    rw [hfold] at h
    dsimp only at h
    simp only [Except.ok.injEq] at h
    subst h
    have hfa := foldOutcome_terminal resolve idx tcs hidx metrics rs gs evs hfold
    simp only [List.nil_append]
    exact ⟨hfa.length_eq.symm, hfa⟩

/-- A resolution oracle that always fails (a scorer library without the
requested class); the claims below that use it never reach resolution. -/
def resolveFail : ResolveFn := fun cls _ =>
  Except.error (PyExc.otherExc "ImportError"
    ("Cannot resolve DeepEval metric class: " ++ cls))

/-- A metric whose catalogue constraint carries the recognized prefix but
a non-numeric count: the naive parser calls `int("two")`. -/
def badConstraintMd : MetricDef :=
  { metric_id := "m.bad", metric_name := "Bad Constraint",
    metric_class := "BadCls", test_case_type := "LLMTestCase",
    constraints := ["input must contain exactly two images"] }

/-- Counterexample to C2 as stated: with a metric definition whose
constraint text has a non-numeric count and one test case, the constraint
parser raises `ValueError` outside every `try`, so `run_evaluation`
propagates the exception and returns no results list at all — not one
entry for the selection. -/
theorem run_evaluation_constraint_parse_aborts :
    run_evaluation resolveFail [("m.bad", badConstraintMd)]
      [{ metric_id := "m.bad" }] [[]] =
    Except.error (PyExc.valueError
      ("invalid literal for int() with base 10: " ++ pyRepr "two")) := by
  rfl

/-- A tiny catalogue for the witnesses: one metric `"m.x"` that requires
init param `"p"`. -/
def tinySchema : RawSchema :=
  { eval_types :=
      [("cat",
        { metrics := some
            [{ metric_id := "m.x", metric_name := some "X Metric",
               metric_class := "XCls", test_case_type := "LLMTestCase",
               required_metric_init_params := some ["p"] }] })] }

/-- The index built from `tinySchema`. -/
def tinyIdx : List (String × MetricDef) := build_metric_index tinySchema

/-- Two selections: `"m.x"` (fails init-param validation) and an unknown
id (fails lookup). -/
def tinySels : List MetricSel :=
  [{ metric_id := "m.x" }, { metric_id := "m.unknown" }]

/-- Witness for C2: at the concrete two-selection request the run returns
normally with exactly two terminal entries, one per selection, in order. -/
theorem run_evaluation_one_result_per_selection_witness :
    ∃ st, run_evaluation resolveFail tinyIdx tinySels [] = Except.ok st ∧
      st.results.length = tinySels.length ∧
      List.Forall₂ TerminalEntry tinySels st.results := by
  refine ⟨_, rfl, ?_⟩
  exact run_evaluation_one_result_per_selection resolveFail tinyIdx tinySels [] _
    (build_metric_index_consistent tinySchema) rfl

/-- C6: a selection whose `metric_id` is not in the index yields exactly
one result entry — error set, no score — and the loop continues: for any
surrounding selections whose outcomes return normally, the full run
returns normally and every other selection's outcome is exactly what it
would be without this selection. -/
theorem unknown_metric_single_error_entry_no_abort (resolve : ResolveFn)
    (idx : List (String × MetricDef)) (tcs : List TestCase) (msel : MetricSel)
    (h : lookupIdx idx msel.metric_id = none) :
    selOutcome resolve idx tcs msel =
      Except.ok (unknownResult msel.metric_id, [], []) ∧
    (unknownResult msel.metric_id).error =
      some "Unknown metric_id (not found in schema)." ∧
    (unknownResult msel.metric_id).score = none ∧
    ∀ pre post rs gs evs rs2 gs2 evs2,
      foldOutcome resolve idx tcs pre = Except.ok (rs, gs, evs) →
      foldOutcome resolve idx tcs post = Except.ok (rs2, gs2, evs2) →
      run_evaluation resolve idx (pre ++ msel :: post) tcs =
        Except.ok { results := rs ++ unknownResult msel.metric_id :: rs2,
                    gaps := gs ++ gs2, metric_evidence := evs ++ evs2 } := by
  have hsel : selOutcome resolve idx tcs msel =
      Except.ok (unknownResult msel.metric_id, [], []) := by
    unfold selOutcome
    rw [h]
  refine ⟨hsel, rfl, rfl, ?_⟩
  intro pre post rs gs evs rs2 gs2 evs2 hpre hpost
  unfold run_evaluation
  rw [runFold_eq_foldOutcome, foldOutcome_append, hpre]
  dsimp only
  have hcons : foldOutcome resolve idx tcs (msel :: post) =
      Except.ok (unknownResult msel.metric_id :: rs2, gs2, evs2) := by
    simp only [foldOutcome, hsel, hpost]
    simp
  rw [hcons]
  simp

/-- Witness for C6: concrete empty index, one unknown selection, empty
surroundings — the run returns normally with exactly the one error
entry. -/
theorem unknown_metric_single_error_entry_no_abort_witness :
    run_evaluation resolveFail [] [{ metric_id := "m.none" }] [] =
      Except.ok { results := [unknownResult "m.none"], gaps := [],
                  metric_evidence := [] } :=
  (unknown_metric_single_error_entry_no_abort resolveFail [] []
      { metric_id := "m.none" } rfl).2.2.2 [] [] [] [] [] [] [] [] rfl rfl

/-- The trigger guard of the naive image-count parser: does the lowered,
stripped constraint text contain one of the two phrase pairs that
`_apply_constraints` recognizes? -/
def matchesImageGrammar (c : String) : Bool :=
  (strContains (pyStrip (pyLower c)) "input must contain exactly" &&
   strContains (pyStrip (pyLower c)) "image") ||
  (strContains (pyStrip (pyLower c)) "actual_output must contain exactly" &&
   strContains (pyStrip (pyLower c)) "image")

/-- Counterexample to C1 as stated: the constraint string
`"input must contain exactly two images"` does not match the numeric
image-count grammar, yet `_apply_constraints` raises `ValueError` from
`int("two")` instead of treating it as always-satisfied. -/
theorem apply_constraints_nonnumeric_count_raises :
    _apply_constraints badConstraintMd [] =
      Except.error (PyExc.valueError
        ("invalid literal for int() with base 10: " ++ pyRepr "two")) := by
  rfl

/-- C1 amended: a constraint string that does not contain a recognized
trigger-phrase pair (the lowered, stripped text must contain
`"input must contain exactly"` or `"actual_output must contain exactly"`
together with `"image"`) is always-satisfied — no violation and no
exception — for every metric definition and every test case.  Strings
that do contain a trigger pair but a non-numeric count raise instead
(see the counterexample). -/
theorem apply_constraints_unmatched_always_ok (md : MetricDef) (tc : TestCase)
    (h : ∀ c ∈ md.constraints, matchesImageGrammar c = false) :
    _apply_constraints md tc = Except.ok [] := by
  unfold _apply_constraints
  suffices hgo : ∀ l, (∀ c ∈ l, matchesImageGrammar c = false) →
      _apply_constraints.go md tc l = Except.ok [] from hgo md.constraints h
  intro l
  induction l with
  | nil => intro _; rfl
  | cons c cs ih =>
    intro hl
    have hc : matchesImageGrammar c = false := hl c (by simp)
    have hcs : ∀ x ∈ cs, matchesImageGrammar x = false :=
      fun x hm => hl x (List.mem_cons_of_mem _ hm)
    have h1 : applyOneConstraint md tc c = Except.ok [] := by
      unfold applyOneConstraint
      simp only [matchesImageGrammar, Bool.or_eq_false_iff] at hc
      obtain ⟨hg1, hg2⟩ := hc
      simp only [hg1, hg2, Bool.false_eq_true, if_false]
      rfl
    simp only [_apply_constraints.go, h1, ih hcs]
    rfl

/-- A metric whose constraints never match the image-count grammar (the
second one even contains a trigger phrase, but no "image"). -/
def unrecognizedMd : MetricDef :=
  { metric_id := "m.free", metric_name := "Free", metric_class := "FCls",
    test_case_type := "LLMTestCase",
    constraints := ["answer must be grounded in retrieval context",
                    "input must contain exactly one concept"] }

/-- Witness for the amended C1 at a concrete metric and test case. -/
theorem apply_constraints_unmatched_always_ok_witness :
    (∀ c ∈ unrecognizedMd.constraints, matchesImageGrammar c = false) ∧
    _apply_constraints unrecognizedMd [("input", Value.vstr "x")] =
      Except.ok [] :=
  ⟨by decide, apply_constraints_unmatched_always_ok unrecognizedMd
    [("input", Value.vstr "x")] (by decide)⟩

/-- The collected violation list is the concatenation, over the test
cases in order, of that test case's required-field violations followed by
its constraint violations. -/
theorem collectTcErrors_flatten (md : MetricDef) :
    ∀ (tcs : List TestCase) (errs : List String),
      collectTcErrors md tcs = Except.ok errs →
      ∃ perTc : List (List String),
        List.Forall₂
          (fun tc e => ∃ ce, _apply_constraints md tc = Except.ok ce ∧
            e = _validate_required_fields md tc ++ ce) tcs perTc ∧
        errs = perTc.flatten := by
  intro tcs
  induction tcs with
  | nil =>
    intro errs h
    simp only [collectTcErrors, Except.ok.injEq] at h
    subst h
    exact ⟨[], List.Forall₂.nil, rfl⟩
  | cons tc rest ih =>
    intro errs h
    simp only [collectTcErrors] at h
    cases hac : _apply_constraints md tc with
    | error e => rw [hac] at h; exact absurd h (by simp)
    | ok ce =>
      rw [hac] at h
      dsimp only at h
      cases hrest : collectTcErrors md rest with
      | error e => rw [hrest] at h; exact absurd h (by simp)
      | ok es =>
        rw [hrest] at h
        dsimp only at h
        simp only [Except.ok.injEq] at h
        subst h
        obtain ⟨perTc, hfa, hflat⟩ := ih es hrest
        refine ⟨(_validate_required_fields md tc ++ ce) :: perTc,
          List.Forall₂.cons ⟨ce, hac, rfl⟩ hfa, ?_⟩
        rw [List.flatten_cons, ← hflat, List.append_assoc]

/-- C7: when a selection's test-case validation collects a non-empty
violation list, all violations across all test cases are collected in
order, the result entry's error is the first five joined verbatim with
`"; "` plus a `" ..."` marker exactly when more than five exist, no score
is produced, and the metric is neither resolved nor executed (the
conclusion holds for every resolution oracle, and no gap or evidence
entry is appended). -/
theorem validation_violations_collected_truncated (resolve : ResolveFn)
    (idx : List (String × MetricDef)) (tcs : List TestCase)
    (msel : MetricSel) (md : MetricDef) (errs : List String)
    (hlk : lookupIdx idx msel.metric_id = some md)
    (hinit : _validate_required_init_params md (mergedInitParams msel md) = [])
    (hcol : collectTcErrors md tcs = Except.ok errs)
    (hne : errs ≠ []) :
    selOutcome resolve idx tcs msel =
      Except.ok (errResult md (truncatedErrors errs), [], []) ∧
    (errResult md (truncatedErrors errs)).score = none ∧
    truncatedErrors errs =
      String.intercalate "; " (errs.take 5) ++
        (if 5 < errs.length then " ..." else "") ∧
    ∃ perTc : List (List String),
      List.Forall₂
        (fun tc e => ∃ ce, _apply_constraints md tc = Except.ok ce ∧
          e = _validate_required_fields md tc ++ ce) tcs perTc ∧
      errs = perTc.flatten := by
  refine ⟨?_, rfl, rfl, collectTcErrors_flatten md tcs errs hcol⟩
  unfold selOutcome
  rw [hlk]
  dsimp only
  rw [hinit, hcol]
  rw [if_neg (by simp)]
  dsimp only
  rw [if_pos (by simpa using hne)]

/-- A metric requiring the `"input"` field, used in the C7 witness. -/
def needsInputMd : MetricDef :=
  { metric_id := "m.needs", metric_name := "Needs Input",
    metric_class := "NCls", test_case_type := "LLMTestCase",
    required_test_case_fields := ["input"] }

/-- Six test cases all missing `"input"`. -/
def sixEmptyTcs : List TestCase := [[], [], [], [], [], []]

/-- Witness for C7: six violations are collected, the error keeps the
first five and appends the truncation marker. -/
theorem validation_violations_collected_truncated_witness :
    (collectTcErrors needsInputMd sixEmptyTcs =
      Except.ok (List.replicate 6
        ("m.needs: missing required test-case fields: " ++ pyReprList ["input"]))) ∧
    selOutcome resolveFail [("m.needs", needsInputMd)] sixEmptyTcs
        { metric_id := "m.needs" } =
      Except.ok (errResult needsInputMd
        (truncatedErrors (List.replicate 6
          ("m.needs: missing required test-case fields: " ++ pyReprList ["input"]))),
        [], []) :=
  ⟨by rfl,
   (validation_violations_collected_truncated resolveFail
      [("m.needs", needsInputMd)] sixEmptyTcs { metric_id := "m.needs" }
      needsInputMd _ rfl rfl (by rfl) (by decide)).1⟩

/-- The `NotImplementedError` message raised for an unsupported kind. -/
def unsupportedMsg (md : MetricDef) : String :=
  if md.test_case_type = "ConversationalTestCase" then convErrMsg else arenaErrMsg

/-- The gap text recorded for an unsupported kind. -/
def unsupportedGap (md : MetricDef) : String :=
  if md.test_case_type = "ConversationalTestCase" then convGapMsg else arenaGapMsg

/-- C5: a selection whose metric declares the conversational or arena
test-case kind, run against a non-empty test-case list, yields a result
entry whose error is the distinct unsupported-kind message (not a generic
`"Execution failed: ..."` string), appends one matching entry to the
evidence gaps list, and the loop continues normally to the next
selection. -/
theorem unsupported_kind_isolated_error_and_gap (resolve : ResolveFn)
    (idx : List (String × MetricDef)) (tcs : List TestCase)
    (msel : MetricSel) (md : MetricDef) (sc : Scorer)
    (tc0 : TestCase) (rest : List TestCase)
    (hlk : lookupIdx idx msel.metric_id = some md)
    (hkind : md.test_case_type = "ConversationalTestCase" ∨
             md.test_case_type = "ArenaTestCase")
    (hinit : _validate_required_init_params md (mergedInitParams msel md) = [])
    (hval : collectTcErrors md tcs = Except.ok [])
    (hres : resolve md.metric_class (mergedInitParams msel md) = Except.ok sc)
    (htcs : tcs = tc0 :: rest) :
    selOutcome resolve idx tcs msel =
      Except.ok (errResult md (unsupportedMsg md),
        [{ metric_id := md.metric_id, gap := unsupportedGap md }], []) ∧
    (errResult md (unsupportedMsg md)).error = some (unsupportedMsg md) ∧
    (errResult md (unsupportedMsg md)).score = none ∧
    (md.test_case_type = "ConversationalTestCase" →
      unsupportedMsg md = convErrMsg ∧ unsupportedGap md = convGapMsg) ∧
    (md.test_case_type = "ArenaTestCase" →
      unsupportedMsg md = arenaErrMsg ∧ unsupportedGap md = arenaGapMsg) ∧
    ∀ st, runSelection resolve idx tcs st msel =
      Except.ok
        { results := st.results ++ [errResult md (unsupportedMsg md)],
          gaps := st.gaps ++
            [{ metric_id := md.metric_id, gap := unsupportedGap md }],
          metric_evidence := st.metric_evidence } := by
  have hml : measureLoop md sc tcs =
      (Except.error (PyExc.notImplementedError (unsupportedMsg md)),
       [{ metric_id := md.metric_id, gap := unsupportedGap md }]) := by
    subst htcs
    cases hkind with
    | inl hconv =>
      unfold measureLoop unsupportedMsg unsupportedGap
      rw [hconv]
      simp
    | inr harena =>
      unfold measureLoop unsupportedMsg unsupportedGap
      rw [harena]
      simp
  have hmain : selOutcome resolve idx tcs msel =
      Except.ok (errResult md (unsupportedMsg md),
        [{ metric_id := md.metric_id, gap := unsupportedGap md }], []) := by
    unfold selOutcome
    rw [hlk]
    dsimp only
    rw [hinit]
    rw [if_neg (by simp)]
    rw [hval]
    dsimp only
    rw [if_neg (by simp)]
    rw [hres]
    dsimp only
    rw [hml]
  refine ⟨hmain, rfl, rfl, ?_, ?_, ?_⟩
  · intro hconv
    constructor
    · unfold unsupportedMsg; rw [hconv]; simp
    · unfold unsupportedGap; rw [hconv]; simp
  · intro harena
    constructor
    · unfold unsupportedMsg; rw [harena]; simp
    · unfold unsupportedGap; rw [harena]; simp
  · intro st
    unfold runSelection
    rw [hmain]
    simp

/-- A conversational-kind metric, a trivially succeeding scorer and an
oracle resolving to it, for the C5 witness. -/
def convMd : MetricDef :=
  { metric_id := "m.conv", metric_name := "Conv", metric_class := "CCls",
    test_case_type := "ConversationalTestCase" }

/-- A scorer whose measure always returns score 1 and no reason. -/
def okScorer : Scorer :=
  { measure := fun _ => Except.ok (some 1, none), threshold := none }

/-- A resolution oracle that always yields `okScorer`. -/
def resolveOk : ResolveFn := fun _ _ => Except.ok okScorer

/-- Witness for C5: the concrete conversational selection yields the
distinct unsupported-kind error and the matching gap entry. -/
theorem unsupported_kind_isolated_error_and_gap_witness :
    selOutcome resolveOk [("m.conv", convMd)] [[]] { metric_id := "m.conv" } =
      Except.ok (errResult convMd convErrMsg,
        [{ metric_id := "m.conv", gap := convGapMsg }], []) :=
  (unsupported_kind_isolated_error_and_gap resolveOk [("m.conv", convMd)]
    [[]] { metric_id := "m.conv" } convMd okScorer [] [] rfl (Or.inl rfl)
    rfl rfl rfl rfl).1

/-- With an empty test-case list no branch of the loop body can raise:
constraints are never evaluated, and the division-by-zero in the
aggregation is caught by the generic handler. -/
theorem selOutcome_empty_tcs_isOk (resolve : ResolveFn)
    (idx : List (String × MetricDef)) (msel : MetricSel) :
    (selOutcome resolve idx [] msel).isOk = true := by
  unfold selOutcome
  cases lookupIdx idx msel.metric_id with
  | none => rfl
  | some md =>
    dsimp only
    split
    · rfl
    · split
      · rename_i e heq
        exact absurd heq (by simp [collectTcErrors])
      · rename_i tc_errors heq
        have htc : tc_errors = [] := by
          simp only [collectTcErrors, Except.ok.injEq] at heq
          exact heq.symm
        subst htc
        rw [if_neg (by simp)]
        split
        · rfl
        · rfl

/-- `run_evaluation` never raises when the submitted test-case list is
empty, whatever the oracle, index and selections. -/
theorem run_evaluation_empty_tcs_isOk (resolve : ResolveFn)
    (idx : List (String × MetricDef)) (metrics : List MetricSel) :
    (run_evaluation resolve idx metrics []).isOk = true := by
  unfold run_evaluation
  suffices h : ∀ ms st, (runFold resolve idx [] ms st).isOk = true from
    h metrics { results := [], gaps := [], metric_evidence := [] }
  intro ms
  induction ms with
  | nil => intro st; rfl
  | cons m ms ih =>
    intro st
    simp only [runFold, runSelection]
    cases hsel : selOutcome resolve idx [] m with
    | error e =>
      have h2 := selOutcome_empty_tcs_isOk resolve idx m
      rw [hsel] at h2
      exact absurd h2 Bool.false_ne_true
    | ok out =>
      obtain ⟨r, g, ev⟩ := out
      dsimp only
      exact ih _

/-- C9: a selection that passes init-param validation and instantiation
but has an empty submitted test-case list hits the division by zero in
the per-metric mean; the generic handler catches it and records an
execution error naming `ZeroDivisionError`, with no score; on an empty
test-case list `run_evaluation` itself never raises. -/
theorem empty_test_cases_zero_division_caught (resolve : ResolveFn)
    (idx : List (String × MetricDef)) (msel : MetricSel) (md : MetricDef)
    (sc : Scorer)
    (hlk : lookupIdx idx msel.metric_id = some md)
    (hinit : _validate_required_init_params md (mergedInitParams msel md) = [])
    (hres : resolve md.metric_class (mergedInitParams msel md) = Except.ok sc) :
    selOutcome resolve idx [] msel =
      Except.ok (errResult md
        ("Execution failed: " ++ excName PyExc.zeroDivisionError ++ ": " ++
          excMsg PyExc.zeroDivisionError), [], []) ∧
    ("Execution failed: " ++ excName PyExc.zeroDivisionError ++ ": " ++
        excMsg PyExc.zeroDivisionError) =
      "Execution failed: ZeroDivisionError: division by zero" ∧
    (errResult md
        "Execution failed: ZeroDivisionError: division by zero").score = none ∧
    ∀ (resolve2 : ResolveFn) (idx2 : List (String × MetricDef))
      (metrics2 : List MetricSel),
      (run_evaluation resolve2 idx2 metrics2 []).isOk = true := by
  refine ⟨?_, by rfl, rfl,
    fun r2 i2 m2 => run_evaluation_empty_tcs_isOk r2 i2 m2⟩
  unfold selOutcome
  rw [hlk]
  dsimp only
  rw [hinit]
  rw [if_neg (by simp)]
  simp only [collectTcErrors]
  rw [if_neg (by simp)]
  rw [hres]
  rfl

/-- A plain single-turn metric for the C9 witness. -/
def simpleMd : MetricDef :=
  { metric_id := "m.llm", metric_name := "LLM", metric_class := "LCls",
    test_case_type := "LLMTestCase" }

/-- Witness for C9 at a concrete metric with an empty test-case list. -/
theorem empty_test_cases_zero_division_caught_witness :
    selOutcome resolveOk [("m.llm", simpleMd)] [] { metric_id := "m.llm" } =
      Except.ok (errResult simpleMd
        "Execution failed: ZeroDivisionError: division by zero", [], []) :=
  (empty_test_cases_zero_division_caught resolveOk [("m.llm", simpleMd)]
    { metric_id := "m.llm" } simpleMd okScorer rfl rfl rfl).1

/-- C4: under `"maximum_is_passing"` semantics `passed` is `score ≤
threshold`; under every other semantics value (the default
`"minimum_is_passing"` included) it is `score ≥ threshold`; equality
passes under both; and the success entry's `passed` is `none` exactly
when the scorer instance carries no threshold, otherwise it is
`_pass_fail` at the aggregate (mean) score. -/
theorem pass_fail_semantics_and_threshold_presence (md : MetricDef)
    (s t : Rat) (sc : Scorer) (ip : Dict) (scores : List Rat)
    (reasons : List String) (r : MetricResult) :
    (md.threshold_semantics = "maximum_is_passing" →
      (_pass_fail md s t = true ↔ s ≤ t)) ∧
    (md.threshold_semantics ≠ "maximum_is_passing" →
      (_pass_fail md s t = true ↔ t ≤ s)) ∧
    (s = t → _pass_fail md s t = true) ∧
    (aggregate md sc ip scores reasons = Except.ok r →
      (r.passed = none ↔ sc.threshold = none) ∧
      ∀ th, sc.threshold = some th →
        r.passed =
          some (_pass_fail md (scores.sum / (scores.length : Rat)) th)) := by
  refine ⟨?_, ?_, ?_, ?_⟩
  · intro hmax
    unfold _pass_fail
    rw [if_pos hmax]
    exact decide_eq_true_iff
  · intro hne
    unfold _pass_fail
    rw [if_neg hne]
    exact decide_eq_true_iff
  · intro hst
    subst hst
    unfold _pass_fail
    split
    · simp
    · simp
  · intro hagg
    obtain ⟨-, -, -, -, f5, -⟩ := aggregate_ok_fields _ _ _ _ _ _ hagg
    constructor
    · rw [f5]
      cases sc.threshold with
      | none => simp
      | some th => simp
    · intro th hth
      rw [f5, hth]

/-- A metric with `"maximum_is_passing"` semantics, for the C4 witness. -/
def mdMax : MetricDef :=
  { metric_id := "m.max", metric_name := "Max", metric_class := "MCls",
    test_case_type := "LLMTestCase",
    threshold_semantics := "maximum_is_passing" }

/-- A scorer carrying threshold 1, for the C4 witness. -/
def thresholdScorer : Scorer :=
  { measure := fun _ => Except.ok (some 1, none), threshold := some 1 }

/-- Witness for C4: score equal to the threshold passes under
`maximum_is_passing` (boundary inclusive), and the aggregated entry's
`passed` is `some true`. -/
theorem pass_fail_semantics_and_threshold_presence_witness :
    _pass_fail mdMax 1 1 = true ∧
    ∃ r, aggregate mdMax thresholdScorer [] [1] [] = Except.ok r ∧
      r.passed = some true := by
  obtain ⟨r, hr⟩ : ∃ r, aggregate mdMax thresholdScorer [] [1] [] = Except.ok r :=
    ⟨_, rfl⟩
  have h := pass_fail_semantics_and_threshold_presence mdMax 1 1
    thresholdScorer [] [1] [] r
  have hpf : _pass_fail mdMax 1 1 = true := (h.1 rfl).mpr le_rfl
  have hp := (h.2.2.2 hr).2 1 rfl
  refine ⟨hpf, r, hr, ?_⟩
  rw [hp]
  have havg : (List.sum [(1 : Rat)] / ((List.length [(1 : Rat)] : Nat) : Rat)) = 1 := by
    simp
  rw [havg, hpf]

/-- C8: merging a threshold override into the caller's init params keeps
every caller value untouched — a present `"threshold"` key wins outright,
a `none` override changes nothing, and only an absent key receives the
override (appended at the end, readable back). -/
theorem threshold_override_merge_caller_wins (ip : Dict) (ov : Option Rat) :
    (dContainsKey ip "threshold" = true → mergeThreshold ip ov = ip) ∧
    (ov = none → mergeThreshold ip ov = ip) ∧
    (∀ t, ov = some t → dContainsKey ip "threshold" = false →
      mergeThreshold ip ov = ip ++ [("threshold", Value.vnum t)] ∧
      dget (mergeThreshold ip ov) "threshold" = some (Value.vnum t)) := by
  refine ⟨?_, ?_, ?_⟩
  · intro hc
    cases ov with
    | none => rfl
    | some t =>
      unfold mergeThreshold dSetdefault
      dsimp only
      rw [if_pos hc]
  · intro h
    subst h
    rfl
  · intro t hov hnc
    subst hov
    have hmerge : mergeThreshold ip (some t) = ip ++ [("threshold", Value.vnum t)] := by
      unfold mergeThreshold dSetdefault
      dsimp only
      rw [if_neg (by rw [hnc]; exact Bool.false_ne_true)]
    refine ⟨hmerge, ?_⟩
    rw [hmerge]
    unfold dget
    rw [List.find?_append]
    have hfind : List.find? (fun p => p.1 == "threshold") ip = none := by
      rw [List.find?_eq_none]
      intro p hp hbeq
      have hc2 : dContainsKey ip "threshold" = true :=
        List.any_eq_true.mpr ⟨p, hp, hbeq⟩
      rw [hnc] at hc2
      exact Bool.false_ne_true hc2
    rw [hfind]
    rfl

/-- Caller init params already carrying a threshold, for the C8 witness. -/
def callerIp : Dict := [("threshold", Value.vnum 1)]

/-- Witness for C8: a present caller threshold survives a different
override, and an absent one receives the override. -/
theorem threshold_override_merge_caller_wins_witness :
    mergeThreshold callerIp (some 2) = callerIp ∧
    mergeThreshold [] (some 2) = [("threshold", Value.vnum 2)] :=
  ⟨(threshold_override_merge_caller_wins callerIp (some 2)).1 (by decide),
   ((threshold_override_merge_caller_wins [] (some 2)).2.2 2 rfl (by decide)).1⟩

/-- A results list with one explicit failure and one error entry. -/
def mixedResults : List MetricResult :=
  [{ metric_id := "a", metric_name := "a", passed := some false },
   { metric_id := "b", metric_name := "b", error := some "boom" }]

/-- Witness for C3: fail beats warning — one `passed = false` entry makes
the whole run FAIL even though another entry carries an error. -/
theorem overall_status_worst_signal_wins_witness :
    overall_status mixedResults = "FAIL" :=
  (overall_status_worst_signal_wins mixedResults).1.mpr
    ⟨{ metric_id := "a", metric_name := "a", passed := some false },
     by simp [mixedResults], rfl⟩
